import Mathlib

/-!
Verification of the offline-caching service worker of the wedding-invitation
site (source: the service-worker script, the only file with algorithmic
content). The worker's lifecycle handlers are embedded shallowly:

* cache storage is an association list of named buckets, each bucket an
  association list from URL keys to stored response snapshots;
* `cache.put` follows the Cache API batch semantics: delete any existing
  entry for the key, then append the new snapshot;
* `cache.addAll` follows the Cache API batch semantics: all requests are
  fetched, and if any single fetch fails the whole operation rejects and
  no entry is stored (atomic);
* the network is a parameter: a function from requests to outcomes
  (rejection with an error, or resolution with an optional response);
* the fetch-interception handler is a pure function returning the outcome
  delivered to the page, the updated cache storage, and whether the
  network was consulted.
-/

set_option autoImplicit false

namespace WeddingSW

/-- A stored response snapshot: HTTP status, response type (the source tests
the string "basic"), and body bytes. -/
structure Response where
  status : Nat
  rtype : String
  body : String
deriving DecidableEq

/-- An outbound request as the fetch handler sees it: URL, method, and the
value of headers.get applied to accept (none when the header is absent,
matching a null return). -/
structure Request where
  url : String
  method : String
  accept : Option String
deriving DecidableEq

/-- Leading-pattern test on character lists (helper for substring search). -/
def charsPre : List Char → List Char → Bool
  | [], _ => true
  | _ :: _, [] => false
  | a :: as, b :: bs => a == b && charsPre as bs

/-- Substring occurrence test on character lists. -/
def charsSub (pat : List Char) : List Char → Bool
  | [] => charsPre pat []
  | c :: rest => charsPre pat (c :: rest) || charsSub pat rest

/-- Model of the JS String.includes test used by the fetch handler. -/
def strContains (s pat : String) : Bool :=
  charsSub pat.toList s.toList

/-- Model of the JS String.startsWith test used by the fetch handler. -/
def strStarts (s pre : String) : Bool :=
  charsPre pre.toList s.toList

/-- A cache bucket: stored entries keyed by URL. -/
abbrev Bucket := List (String × Response)

/-- The cache storage: named buckets in creation order. -/
abbrev CacheStorage := List (String × Bucket)

/-- Lookup of a key in one bucket (cache.match within a bucket). -/
def bucketMatch : Bucket → String → Option Response
  | [], _ => none
  | (k2, v) :: rest, k => if k2 == k then some v else bucketMatch rest k

/-- Lookup across every bucket in order (the global caches.match). -/
def cachesMatch : CacheStorage → String → Option Response
  | [], _ => none
  | (_, b) :: rest, k =>
    match bucketMatch b k with
    | some r => some r
    | none => cachesMatch rest k

/-- Cache API put: remove any entry for the key, append the new snapshot. -/
def putEntry : Bucket → String → Response → Bucket
  | [], k, v => [(k, v)]
  | (k2, w) :: rest, k, v =>
    if k2 == k then putEntry rest k v else (k2, w) :: putEntry rest k v

/-- caches.open: create the named bucket (empty) when absent. -/
def ensureBucket : CacheStorage → String → CacheStorage
  | [], n => [(n, [])]
  | (m, b) :: rest, n =>
    if m == n then (m, b) :: rest else (m, b) :: ensureBucket rest n

/-- Contents of the named bucket (empty when absent). -/
def lookupBucket : CacheStorage → String → Bucket
  | [], _ => []
  | (m, b) :: rest, n => if m == n then b else lookupBucket rest n

/-- Replace the contents of the named bucket (create it when absent). -/
def setBucket : CacheStorage → String → Bucket → CacheStorage
  | [], n, b => [(n, b)]
  | (m, c) :: rest, n, b =>
    if m == n then (m, b) :: rest else (m, c) :: setBucket rest n b

/-- caches.open followed by cache.put on the opened bucket. -/
def putInBucket : CacheStorage → String → String → Response → CacheStorage
  | [], n, k, v => [(n, putEntry [] k v)]
  | (m, b) :: rest, n, k, v =>
    if m == n then (m, putEntry b k v) :: rest
    else (m, b) :: putInBucket rest n k v

/-- The version string naming the current bucket (source line 4). -/
def CACHE_NAME : String := "wedding-invitation-v1.0.0"

/-- The fixed install manifest (source lines 5-16). -/
def urlsToCache : List String :=
  ["/",
   "/index.html",
   "/css/styles.css",
   "/js/script.js",
   "/assets/background.png",
   "/assets/wedding-music.mp3",
   "/assets/invitation-card.pdf",
   "/manifest.json",
   "https://i.pinimg.com/originals/f6/27/91/f62791c3d0e3e2c3a0b3e0e3e3d8e3c3.png",
   "https://maps.app.goo.gl/ctKUnnbbKhS6xQcz7"]

/-- Sequential puts of the fetched snapshots, in manifest order. The
environment f gives the fetched response for each URL (none when the
no-cors fetch for that URL fails). -/
def addEntries (f : String → Option Response) : List String → Bucket → Bucket
  | [], b => b
  | u :: rest, b =>
    addEntries f rest
      (match f u with
       | some r => putEntry b u r
       | none => b)

/-- cache.addAll: atomic per the Cache API batch semantics — when every
fetch succeeds all snapshots are stored, when any fetch fails the whole
operation rejects and nothing is stored. -/
def addAll (f : String → Option Response) (urls : List String) (b : Bucket) :
    Option Bucket :=
  if urls.all (fun u => (f u).isSome) then some (addEntries f urls b)
  else none

/-- The install handler (source lines 19-39): open the current bucket,
addAll the manifest, and swallow any addAll rejection with the catch so
that installation always completes successfully (the Bool result). -/
def installStep (f : String → Option Response) (s : CacheStorage) :
    CacheStorage × Bool :=
  let s1 := ensureBucket s CACHE_NAME
  match addAll f urlsToCache (lookupBucket s1 CACHE_NAME) with
  | some b => (setBucket s1 CACHE_NAME b, true)
  | none => (s1, true)

/-- The activate handler (source lines 42-60): delete every bucket whose
name differs from CACHE_NAME. -/
def activateStep (s : CacheStorage) : CacheStorage :=
  s.filter (fun p => p.1 == CACHE_NAME)

/-- Outcome of the network fetch on the miss path: rejection with an error
value, or resolution with an optional response (the source guards against
a missing response value). -/
inductive NetResult where
  | failure (err : String)
  | success (resp : Option Response)
deriving DecidableEq

/-- What the fetch handler delivers for one intercepted request. -/
inductive FetchOutcome where
  /-- handler returned without calling respondWith: browser default -/
  | passthrough
  /-- respondWith resolved with this value -/
  | respond (r : Option Response)
  /-- respondWith rejected with the propagated network error -/
  | reject (err : String)
  /-- handler threw a TypeError dereferencing the null accept header -/
  | fault
deriving DecidableEq

/-- Result of one run of the fetch handler: delivered outcome, updated
cache storage, and whether the network was consulted. -/
structure FetchResult where
  outcome : FetchOutcome
  storage : CacheStorage
  usedNetwork : Bool
deriving DecidableEq

/-- The fetch handler (source lines 63-119): skip non-GET, skip maps URLs,
serve a cache hit, otherwise fetch; cache a same-origin basic 200 copy;
on network failure serve /index.html for HTML accepts, and for an absent
accept header the null dereference throws. -/
def fetchHandler (origin : String) (net : Request → NetResult)
    (s : CacheStorage) (req : Request) : FetchResult :=
  if req.method != "GET" then ⟨.passthrough, s, false⟩
  else if strContains req.url "maps.app.goo.gl" then ⟨.passthrough, s, false⟩
  else
    match cachesMatch s req.url with
    | some r => ⟨.respond (some r), s, false⟩
    | none =>
      match net req with
      | .success none => ⟨.respond none, s, true⟩
      | .success (some r) =>
        if r.status != 200 || r.rtype != "basic" then ⟨.respond (some r), s, true⟩
        else
          ⟨.respond (some r),
           if strStarts req.url origin then putInBucket s CACHE_NAME req.url r
           else s,
           true⟩
      | .failure e =>
        match req.accept with
        | none => ⟨.fault, s, true⟩
        | some a =>
          if strContains a "text/html" then
            ⟨.respond (cachesMatch s "/index.html"), s, true⟩
          else ⟨.reject e, s, true⟩

/-- Payload of an incoming message event (source lines 188-207). -/
structure MsgData where
  type : String
  urls : List String
deriving DecidableEq

/-- Result of one run of the message handler: whether skipWaiting was
invoked, the payloads posted on the first reply port, the updated storage,
and whether the handler threw (dereferencing a missing ports entry). -/
structure MessageResult where
  skippedWaiting : Bool
  replies : List String
  storage : CacheStorage
  faulted : Bool
deriving DecidableEq

/-- The message handler (source lines 188-207): SKIP_WAITING calls
skipWaiting, GET_VERSION posts the version on ports index zero (throwing
when no port was given), CACHE_URLS addAlls the supplied list into the
current bucket with no catch. -/
def messageHandler (f : String → Option Response) (s : CacheStorage)
    (data : Option MsgData) (ports : List Unit) : MessageResult :=
  match data with
  | none => ⟨false, [], s, false⟩
  | some d =>
    let sw := d.type == "SKIP_WAITING"
    if d.type == "GET_VERSION" then
      match ports with
      | [] => ⟨sw, [], s, true⟩
      | _ :: _ => ⟨sw, [CACHE_NAME], s, false⟩
    else if d.type == "CACHE_URLS" then
      let s1 := ensureBucket s CACHE_NAME
      match addAll f d.urls (lookupBucket s1 CACHE_NAME) with
      | some b => ⟨sw, [], setBucket s1 CACHE_NAME b, false⟩
      | none => ⟨sw, [], s1, false⟩
    else ⟨sw, [], s, false⟩

/-! Helper lemmas about the bucket and storage operations. -/

theorem bucketMatch_putEntry (b : Bucket) (u k : String) (r : Response) :
    bucketMatch (putEntry b u r) k = if u = k then some r else bucketMatch b k := by
  induction b with
  | nil => by_cases h : u = k <;> simp [putEntry, bucketMatch, h]
  | cons p rest ih =>
    obtain ⟨k2, w⟩ := p
    by_cases h1 : k2 = u <;> by_cases h2 : u = k <;>
      simp_all [putEntry, bucketMatch, beq_iff_eq]

theorem cachesMatch_putInBucket (s : CacheStorage) (n k : String) (v : Response)
    (h : cachesMatch s k = none) :
    cachesMatch (putInBucket s n k v) k = some v := by
  induction s with
  | nil => simp [putInBucket, cachesMatch, putEntry, bucketMatch]
  | cons p rest ih =>
    obtain ⟨m, b⟩ := p
    cases hbm : bucketMatch b k with
    | some r => simp [cachesMatch, hbm] at h
    | none =>
      have hrest : cachesMatch rest k = none := by
        simpa [cachesMatch, hbm] using h
      by_cases hm : m = n
      · simp [putInBucket, hm, cachesMatch, bucketMatch_putEntry]
      · simp [putInBucket, beq_iff_eq, hm, cachesMatch, hbm, ih hrest]

theorem addEntries_match (f : String → Option Response) (L : List String) :
    ∀ (b : Bucket) (k : String),
      bucketMatch (addEntries f L b) k =
        if k ∈ L ∧ (f k).isSome then f k else bucketMatch b k := by
  induction L with
  | nil => intro b k; simp [addEntries]
  | cons u rest ih =>
    intro b k
    cases hf : f u with
    | none =>
      simp only [addEntries, hf]
      rw [ih]
      by_cases hku : k = u
      · subst hku
        simp [hf]
      · simp [List.mem_cons, hku]
    | some r =>
      simp only [addEntries, hf]
      rw [ih, bucketMatch_putEntry]
      by_cases hku : u = k
      · subst hku
        simp [hf, List.mem_cons]
      · simp [List.mem_cons, hku, Ne.symm hku]

theorem keys_putEntry_sub (b : Bucket) (k : String) (v : Response) (x : String) :
    x ∈ (putEntry b k v).map Prod.fst → x ∈ b.map Prod.fst ∨ x = k := by
  induction b with
  | nil => simp [putEntry]
  | cons p rest ih =>
    obtain ⟨k2, w⟩ := p
    by_cases h2 : k2 = k
    · intro h
      simp only [putEntry, h2, beq_self_eq_true, if_true] at h
      rcases ih h with a | a
      · exact Or.inl (by simp [a])
      · exact Or.inr a
    · intro h
      simp only [putEntry, beq_iff_eq, h2, if_false, List.map_cons,
        List.mem_cons] at h
      rcases h with a | a
      · exact Or.inl (by simp [a])
      · rcases ih a with c | c
        · refine Or.inl ?_
          simp only [List.map_cons, List.mem_cons]
          exact Or.inr c
        · exact Or.inr c

theorem keys_putEntry_nodup (b : Bucket) (k : String) (v : Response)
    (h : (b.map Prod.fst).Nodup) : ((putEntry b k v).map Prod.fst).Nodup := by
  induction b with
  | nil => simp [putEntry]
  | cons p rest ih =>
    obtain ⟨k2, w⟩ := p
    simp only [List.map_cons, List.nodup_cons] at h
    obtain ⟨hk2, hrest⟩ := h
    by_cases h2 : k2 = k
    · simpa [putEntry, h2] using ih hrest
    · simp only [putEntry, beq_iff_eq, h2, if_false, List.map_cons,
        List.nodup_cons]
      refine ⟨?_, ih hrest⟩
      intro hmem
      rcases keys_putEntry_sub rest k v k2 hmem with a | a
      · exact hk2 a
      · exact h2 a

theorem keys_addEntries_nodup (f : String → Option Response) :
    ∀ (L : List String) (b : Bucket), (b.map Prod.fst).Nodup →
      ((addEntries f L b).map Prod.fst).Nodup := by
  intro L
  induction L with
  | nil => intro b h; simpa [addEntries] using h
  | cons u rest ih =>
    intro b h
    cases hf : f u with
    | none => simp only [addEntries, hf]; exact ih b h
    | some r => simp only [addEntries, hf]; exact ih _ (keys_putEntry_nodup b u r h)

theorem filter_fst_nil_of_notMem (n : String) :
    ∀ (s : CacheStorage), n ∉ s.map Prod.fst →
      s.filter (fun p => p.1 == n) = [] := by
  intro s
  induction s with
  | nil => simp
  | cons p rest ih =>
    intro h
    obtain ⟨m, b⟩ := p
    simp only [List.map_cons, List.mem_cons] at h
    push_neg at h
    obtain ⟨h1, h2⟩ := h
    simp [List.filter_cons, beq_iff_eq, Ne.symm h1, ih h2]

theorem activate_keys (n : String) :
    ∀ (s : CacheStorage), (s.map Prod.fst).Nodup → n ∈ s.map Prod.fst →
      ((s.filter (fun p => p.1 == n)).map Prod.fst) = [n] := by
  intro s
  induction s with
  | nil => simp
  | cons p rest ih =>
    intro hnd hmem
    obtain ⟨m, b⟩ := p
    simp only [List.map_cons, List.nodup_cons] at hnd
    obtain ⟨hm, hnd2⟩ := hnd
    simp only [List.map_cons, List.mem_cons] at hmem
    by_cases he : m = n
    · subst he
      have hz : rest.filter (fun p => p.1 == m) = [] :=
        filter_fst_nil_of_notMem m rest hm
      simp [List.filter_cons, hz]
    · have hmem2 : n ∈ rest.map Prod.fst := by
        rcases hmem with a | a
        · exact absurd a.symm he
        · exact a
      simp [List.filter_cons, beq_iff_eq, he, ih hnd2 hmem2]

/-! Concrete fixtures used by witnesses and counterexamples. -/

/-- A same-origin basic 200 snapshot used as a generic fetched response. -/
def respA : Response := ⟨200, "basic", "x"⟩

/-- An install environment in which every manifest fetch succeeds. -/
def fetchAllOk : String → Option Response := fun _ => some respA

/-- An install environment in which exactly the stylesheet fetch fails. -/
def fetchCssFails : String → Option Response :=
  fun u => if u == "/css/styles.css" then none else some respA

/-! Claims. -/

/-- Claim C1, counterexample: in the environment where only the stylesheet
fetch fails, installation still reports success and the environment does
fetch /index.html successfully, yet /index.html is absent from cache
storage after install — the single failed manifest entry prevented every
other manifest entry from being stored, because cache.addAll is atomic. -/
theorem install_one_failure_blocks_all :
    (installStep fetchCssFails []).snd = true ∧
      fetchCssFails "/index.html" = some respA ∧
      cachesMatch (installStep fetchCssFails []).fst "/index.html" = none := by
  decide

/-- Claim C1, amended: if fetching any individual manifest URL fails during
the install step, the failure is swallowed and installation still
completes successfully, but population is all-or-nothing, not best-effort:
the failed addAll batch stores nothing, and the cache storage is left
exactly as caches.open left it (the current bucket created, its prior
contents unchanged). -/
theorem installStep_failure_swallowed (f : String → Option Response)
    (s : CacheStorage)
    (hfail : urlsToCache.all (fun u => (f u).isSome) = false) :
    (installStep f s).snd = true ∧
      (installStep f s).fst = ensureBucket s CACHE_NAME := by
  simp [installStep, addAll, hfail]

/-- Claim C1, witness for the amended statement at the concrete failing
environment. -/
theorem installStep_failure_swallowed_witness :
    (installStep fetchCssFails []).snd = true ∧
      (installStep fetchCssFails []).fst = ensureBucket [] CACHE_NAME :=
  installStep_failure_swallowed fetchCssFails [] (by decide)

/-- Claim C2, counterexample: the maps navigation link is itself a manifest
entry, so when every manifest fetch succeeds the install step writes a
cache entry for the maps URL — the system does not avoid writing cache
entries for that URL during install-time population. -/
theorem install_caches_maps_url :
    (installStep fetchAllOk []).snd = true ∧
      cachesMatch (installStep fetchAllOk []).fst
        "https://maps.app.goo.gl/ctKUnnbbKhS6xQcz7" = some respA := by
  decide

/-- Claim C2, amended: during fetch interception, every request whose URL
contains maps.app.goo.gl is passed through untouched — it is never served
from the cache and no cache entry is written for it — but install-time
population does store the maps manifest URL when its fetch succeeds. -/
theorem fetch_maps_passthrough (origin : String) (net : Request → NetResult)
    (s : CacheStorage) (req : Request)
    (h : strContains req.url "maps.app.goo.gl" = true) :
    fetchHandler origin net s req = ⟨.passthrough, s, false⟩ := by
  by_cases hm : req.method = "GET"
  · simp [fetchHandler, hm, h]
  · simp [fetchHandler, hm]

/-- Claim C2, witness for the amended statement at the concrete maps URL. -/
theorem fetch_maps_passthrough_witness :
    fetchHandler "https://example.org" (fun _ => .failure "down") []
      ⟨"https://maps.app.goo.gl/ctKUnnbbKhS6xQcz7", "GET", none⟩ =
      ⟨.passthrough, [], false⟩ :=
  fetch_maps_passthrough "https://example.org" (fun _ => .failure "down") []
    ⟨"https://maps.app.goo.gl/ctKUnnbbKhS6xQcz7", "GET", none⟩ (by decide)

/-- Claim C3: for every non-GET request the fetch handler passes the
request through untouched — it never reads the cache, never writes a
cache entry (the storage is returned unchanged), and never touches the
network. -/
theorem fetch_nonGet_passthrough (origin : String) (net : Request → NetResult)
    (s : CacheStorage) (req : Request) (h : req.method ≠ "GET") :
    fetchHandler origin net s req = ⟨.passthrough, s, false⟩ := by
  simp [fetchHandler, h]

/-- Claim C3, witness at a concrete POST request. -/
theorem fetch_nonGet_passthrough_witness :
    fetchHandler "https://example.org" (fun _ => .failure "down") []
      ⟨"/index.html", "POST", none⟩ = ⟨.passthrough, [], false⟩ :=
  fetch_nonGet_passthrough "https://example.org" (fun _ => .failure "down") []
    ⟨"/index.html", "POST", none⟩ (by decide)

/-- Claim C4: when the bucket names are distinct and the current bucket is
present, the activation step leaves exactly the current bucket: the list
of surviving bucket names is precisely the singleton CACHE_NAME. -/
theorem activate_leaves_exactly_current (s : CacheStorage)
    (hnd : (s.map Prod.fst).Nodup) (hmem : CACHE_NAME ∈ s.map Prod.fst) :
    (activateStep s).map Prod.fst = [CACHE_NAME] :=
  activate_keys CACHE_NAME s hnd hmem

/-- Claim C4, witness: activating over a stale v0.9.0 bucket plus the
current bucket deletes exactly the stale one. -/
theorem activate_leaves_exactly_current_witness :
    (activateStep
        [("wedding-invitation-v0.9.0", []), (CACHE_NAME, [])]).map Prod.fst =
      [CACHE_NAME] :=
  activate_leaves_exactly_current
    [("wedding-invitation-v0.9.0", []), (CACHE_NAME, [])]
    (by decide) (by decide)

/-- Claim C5: on a cache miss, when the network resolves with a missing
response, a non-200 response, or a response whose type is not basic, the
handler returns that response unchanged and the cache storage is left
untouched. -/
theorem fetch_miss_invalid_response_uncached (origin : String)
    (net : Request → NetResult) (s : CacheStorage) (req : Request)
    (resp : Option Response)
    (hm : req.method = "GET")
    (hmap : strContains req.url "maps.app.goo.gl" = false)
    (hmiss : cachesMatch s req.url = none)
    (hnet : net req = .success resp)
    (hbad : resp = none ∨
      ∃ r, resp = some r ∧ (r.status ≠ 200 ∨ r.rtype ≠ "basic")) :
    fetchHandler origin net s req = ⟨.respond resp, s, true⟩ := by
  rcases hbad with rfl | ⟨r, rfl, hr⟩
  · simp [fetchHandler, hm, hmap, hmiss, hnet]
  · rcases hr with hr | hr <;> simp [fetchHandler, hm, hmap, hmiss, hnet, hr]

/-- Claim C5, witness: a 404 network response on a miss is returned as-is
and nothing is cached. -/
theorem fetch_miss_invalid_response_uncached_witness :
    fetchHandler "https://example.org"
      (fun _ => .success (some ⟨404, "basic", "nf"⟩)) []
      ⟨"https://example.org/nope", "GET", none⟩ =
      ⟨.respond (some ⟨404, "basic", "nf"⟩), [], true⟩ :=
  fetch_miss_invalid_response_uncached "https://example.org"
    (fun _ => .success (some ⟨404, "basic", "nf"⟩)) []
    ⟨"https://example.org/nope", "GET", none⟩ (some ⟨404, "basic", "nf"⟩)
    (by decide) (by decide) (by decide) rfl
    (Or.inr ⟨⟨404, "basic", "nf"⟩, rfl, Or.inl (by decide)⟩)

/-- Claim C6, round-trip of lazy caching: on a cache miss with a
same-origin status-200 basic network response, the handler returns the
response and writes a copy into the current bucket keyed by the request
URL; a subsequent identical request (under any network, even a failing
one) is then served from the cache without consulting the network. -/
theorem fetch_miss_roundtrip (origin : String) (net net2 : Request → NetResult)
    (s : CacheStorage) (req : Request) (r : Response)
    (hm : req.method = "GET")
    (hmap : strContains req.url "maps.app.goo.gl" = false)
    (hmiss : cachesMatch s req.url = none)
    (hnet : net req = .success (some r))
    (hst : r.status = 200) (hty : r.rtype = "basic")
    (horig : strStarts req.url origin = true) :
    fetchHandler origin net s req =
      ⟨.respond (some r), putInBucket s CACHE_NAME req.url r, true⟩ ∧
    fetchHandler origin net2 (putInBucket s CACHE_NAME req.url r) req =
      ⟨.respond (some r), putInBucket s CACHE_NAME req.url r, false⟩ := by
  constructor
  · simp [fetchHandler, hm, hmap, hmiss, hnet, hst, hty, horig]
  · have h2 : cachesMatch (putInBucket s CACHE_NAME req.url r) req.url = some r :=
      cachesMatch_putInBucket s CACHE_NAME req.url r hmiss
    simp [fetchHandler, hm, hmap, h2]

/-- Claim C6, witness: a concrete stylesheet request cached lazily on a
miss is afterwards served from the cache even when the network is down. -/
theorem fetch_miss_roundtrip_witness :
    fetchHandler "https://example.org"
      (fun _ => .success (some ⟨200, "basic", "css"⟩)) []
      ⟨"https://example.org/late.css", "GET", none⟩ =
      ⟨.respond (some ⟨200, "basic", "css"⟩),
       putInBucket [] CACHE_NAME "https://example.org/late.css"
         ⟨200, "basic", "css"⟩, true⟩ ∧
    fetchHandler "https://example.org" (fun _ => .failure "down")
      (putInBucket [] CACHE_NAME "https://example.org/late.css"
        ⟨200, "basic", "css"⟩)
      ⟨"https://example.org/late.css", "GET", none⟩ =
      ⟨.respond (some ⟨200, "basic", "css"⟩),
       putInBucket [] CACHE_NAME "https://example.org/late.css"
         ⟨200, "basic", "css"⟩, false⟩ :=
  fetch_miss_roundtrip "https://example.org"
    (fun _ => .success (some ⟨200, "basic", "css"⟩)) (fun _ => .failure "down")
    [] ⟨"https://example.org/late.css", "GET", none⟩ ⟨200, "basic", "css"⟩
    (by decide) (by decide) (by decide) rfl (by decide) (by decide) (by decide)

/-- Claim C7: when the network request on the miss path fails and the
request carries an Accept header, the handler serves the cached
/index.html document if that header contains text/html, and otherwise
rejects with exactly the original network error, substituting no
fallback. -/
theorem fetch_network_failure_fallback (origin : String)
    (net : Request → NetResult) (s : CacheStorage) (req : Request)
    (e : String) (a : String) (doc : Response)
    (hm : req.method = "GET")
    (hmap : strContains req.url "maps.app.goo.gl" = false)
    (hmiss : cachesMatch s req.url = none)
    (hnet : net req = .failure e)
    (hacc : req.accept = some a)
    (hdoc : cachesMatch s "/index.html" = some doc) :
    fetchHandler origin net s req =
      if strContains a "text/html" = true then ⟨.respond (some doc), s, true⟩
      else ⟨.reject e, s, true⟩ := by
  by_cases hh : strContains a "text/html" = true
  · simp [fetchHandler, hm, hmap, hmiss, hnet, hacc, hh, hdoc]
  · simp [fetchHandler, hm, hmap, hmiss, hnet, hacc, hh]

/-- Claim C7, witness: with /index.html cached, an offline HTML navigation
to /about.html gets the cached /index.html, while the same theorem at the
non-HTML branch is exercised by the if on the concrete Accept value. -/
theorem fetch_network_failure_fallback_witness :
    fetchHandler "https://example.org" (fun _ => .failure "offline")
      [(CACHE_NAME, [("/index.html", ⟨200, "basic", "shell"⟩)])]
      ⟨"https://example.org/about.html", "GET",
        some "text/html,application/xhtml+xml"⟩ =
      (if strContains "text/html,application/xhtml+xml" "text/html" = true then
        ⟨.respond (some ⟨200, "basic", "shell"⟩),
         [(CACHE_NAME, [("/index.html", ⟨200, "basic", "shell"⟩)])], true⟩
      else
        ⟨.reject "offline",
         [(CACHE_NAME, [("/index.html", ⟨200, "basic", "shell"⟩)])], true⟩) :=
  fetch_network_failure_fallback "https://example.org"
    (fun _ => .failure "offline")
    [(CACHE_NAME, [("/index.html", ⟨200, "basic", "shell"⟩)])]
    ⟨"https://example.org/about.html", "GET",
      some "text/html,application/xhtml+xml"⟩
    "offline" "text/html,application/xhtml+xml" ⟨200, "basic", "shell"⟩
    (by decide) (by decide) (by decide) rfl (by decide) (by decide)

/-- Claim C8: re-running the install step for the same version string over
the bucket the first run produced still reports success, never leaves two
entries for one key (the key list of the resulting bucket is duplicate
free, later puts having overwritten earlier snapshots), and changes no
stored entry: every lookup in the re-installed bucket agrees with the
bucket of the first install. -/
theorem installStep_idempotent (f : String → Option Response) :
    (installStep f (installStep f []).fst).snd = true ∧
      ((lookupBucket (installStep f (installStep f []).fst).fst
          CACHE_NAME).map Prod.fst).Nodup ∧
      ∀ k,
        bucketMatch
            (lookupBucket (installStep f (installStep f []).fst).fst
              CACHE_NAME) k =
          bucketMatch (lookupBucket (installStep f []).fst CACHE_NAME) k := by
  by_cases hall : urlsToCache.all (fun u => (f u).isSome) = true
  · have h1 : (installStep f []).fst =
        [(CACHE_NAME, addEntries f urlsToCache [])] := by
      simp [installStep, addAll, hall, ensureBucket, lookupBucket, setBucket]
    have h2 : installStep f [(CACHE_NAME, addEntries f urlsToCache [])] =
        ([(CACHE_NAME,
            addEntries f urlsToCache (addEntries f urlsToCache []))], true) := by
      simp [installStep, addAll, hall, ensureBucket, lookupBucket, setBucket]
    rw [h1, h2]
    refine ⟨rfl, ?_, ?_⟩
    · simp only [lookupBucket, beq_self_eq_true, if_true]
      exact keys_addEntries_nodup f urlsToCache _
        (keys_addEntries_nodup f urlsToCache [] (by simp))
    · intro k
      simp only [lookupBucket, beq_self_eq_true, if_true]
      simp only [addEntries_match]
      by_cases hc : k ∈ urlsToCache ∧ (f k).isSome = true <;> simp [hc]
  · have h1 : (installStep f []).fst = [(CACHE_NAME, [])] := by
      simp [installStep, addAll, hall, ensureBucket, lookupBucket]
    have h2 : installStep f [(CACHE_NAME, [])] = ([(CACHE_NAME, [])], true) := by
      simp [installStep, addAll, hall, ensureBucket, lookupBucket, setBucket]
    rw [h1, h2]
    exact ⟨rfl, by simp [lookupBucket], fun k => rfl⟩

/-- Claim C9: a GET_VERSION message carrying at least one reply port
receives exactly one reply, whose payload is the current bucket's version
string CACHE_NAME; the handler neither faults nor touches the storage. -/
theorem getVersion_single_reply (f : String → Option Response)
    (s : CacheStorage) (d : MsgData) (ports : List Unit)
    (ht : d.type = "GET_VERSION") (hp : ports ≠ []) :
    (messageHandler f s (some d) ports).replies = [CACHE_NAME] ∧
      (messageHandler f s (some d) ports).faulted = false ∧
      (messageHandler f s (some d) ports).storage = s := by
  cases ports with
  | nil => exact absurd rfl hp
  | cons p rest => simp [messageHandler, ht]

/-- Claim C9, witness at a concrete GET_VERSION message with one port. -/
theorem getVersion_single_reply_witness :
    (messageHandler (fun _ => none) [] (some ⟨"GET_VERSION", []⟩) [()]).replies =
        [CACHE_NAME] ∧
      (messageHandler (fun _ => none) [] (some ⟨"GET_VERSION", []⟩)
          [()]).faulted = false ∧
      (messageHandler (fun _ => none) [] (some ⟨"GET_VERSION", []⟩)
          [()]).storage = [] :=
  getVersion_single_reply (fun _ => none) [] ⟨"GET_VERSION", []⟩ [()]
    (by decide) (by simp)

/-- Claim C10: an intercepted GET request with no Accept header whose
network fetch fails on the miss path makes the handler dereference the
null header value and fault with a type error, instead of serving the
/index.html fallback or propagating the network failure. -/
theorem fetch_missing_accept_faults (origin : String)
    (net : Request → NetResult) (s : CacheStorage) (req : Request)
    (e : String)
    (hm : req.method = "GET")
    (hmap : strContains req.url "maps.app.goo.gl" = false)
    (hmiss : cachesMatch s req.url = none)
    (hnet : net req = .failure e)
    (hacc : req.accept = none) :
    fetchHandler origin net s req = ⟨.fault, s, true⟩ := by
  simp [fetchHandler, hm, hmap, hmiss, hnet, hacc]

/-- Claim C10, witness: a concrete acceptless image request faults when
the network is down and nothing is cached. -/
theorem fetch_missing_accept_faults_witness :
    fetchHandler "https://example.org" (fun _ => .failure "down") []
      ⟨"https://example.org/assets/photo.png", "GET", none⟩ =
      ⟨.fault, [], true⟩ :=
  fetch_missing_accept_faults "https://example.org" (fun _ => .failure "down")
    [] ⟨"https://example.org/assets/photo.png", "GET", none⟩ "down"
    (by decide) (by decide) (by decide) rfl (by decide)

end WeddingSW
